import Mathlib

/-!
# Verification of the C2 utility (src/src/main.rs)

A shallow embedding of the repository's logic, and theorems checking the
specification's statements (C1-C10) against it.

Conventions of the embedding:
* Rust `String`/`&str` values are modelled as `List Char` (`RStr`); Rust byte
  buffers (`Vec<u8>`, `&[u8]`) as `List Nat` with entries below 256.
* Rust byte-indexed string operations (`s.len()`, `&s[i..]`, `&s[..i]`) are
  modelled on the UTF-8 byte lengths of the chars; a slice at an index that is
  not a character boundary is a Rust panic, modelled as `Option.none`.
* `HashMap<String, V>` is modelled as an association list with unique keys
  (`alGet` / `alInsert` / `alErase`); iteration order is irrelevant to every
  claim treated here.
* The vendored third-party primitives (AES-256-GCM, serde_json) are outside
  the repository; they enter the embedding as parameters (an `AEAD` structure,
  parser functions) whose required properties are hypotheses of the theorems
  that need them, exactly as the spec assigns properties to them.
-/

/-- Rust strings, as lists of Unicode scalar values. -/
abbrev RStr := List Char

/-- Shorthand turning a Lean string literal into the embedding's string type. -/
def rs (s : String) : RStr := s.toList

/-- UTF-8 encoded size of one char, as in Rust's `char::len_utf8`. -/
def utf8Size (c : Char) : Nat :=
  if c.val.toNat < 0x80 then 1
  else if c.val.toNat < 0x800 then 2
  else if c.val.toNat < 0x10000 then 3
  else 4

/-- Rust `str::len`: the UTF-8 byte length of a string. -/
def byteLen (s : RStr) : Nat := (s.map utf8Size).sum

/-- Rust `&s[n..]`: drop the first `n` bytes. `none` models the panic raised
when `n` is not a character boundary (or exceeds the length). -/
def byteDrop : Nat → RStr → Option RStr
  | 0, s => some s
  | _ + 1, [] => none
  | n + 1, c :: cs =>
    if utf8Size c ≤ n + 1 then byteDrop (n + 1 - utf8Size c) cs else none

/-- Rust `&s[..n]`: take the first `n` bytes. `none` models the panic raised
when `n` is not a character boundary (or exceeds the length). -/
def byteTake : Nat → RStr → Option RStr
  | 0, _ => some []
  | _ + 1, [] => none
  | n + 1, c :: cs =>
    if utf8Size c ≤ n + 1 then
      (byteTake (n + 1 - utf8Size c) cs).map (c :: ·)
    else none

/-- Rust `char::is_whitespace`: the Unicode `White_Space` code points. -/
def rustIsWhitespace (c : Char) : Bool :=
  c.val.toNat = 0x09 ∨ c.val.toNat = 0x0A ∨ c.val.toNat = 0x0B ∨
  c.val.toNat = 0x0C ∨ c.val.toNat = 0x0D ∨ c.val.toNat = 0x20 ∨
  c.val.toNat = 0x85 ∨ c.val.toNat = 0xA0 ∨ c.val.toNat = 0x1680 ∨
  (0x2000 ≤ c.val.toNat ∧ c.val.toNat ≤ 0x200A) ∨
  c.val.toNat = 0x2028 ∨ c.val.toNat = 0x2029 ∨ c.val.toNat = 0x202F ∨
  c.val.toNat = 0x205F ∨ c.val.toNat = 0x3000

/-- Helper for `splitWs`: accumulates the current token (reversed). -/
def splitWsAux : RStr → RStr → List RStr
  | [], [] => []
  | [], acc => [acc.reverse]
  | c :: cs, acc =>
    if rustIsWhitespace c then
      if acc = [] then splitWsAux cs [] else acc.reverse :: splitWsAux cs []
    else splitWsAux cs (c :: acc)

/-- Rust `str::split_whitespace().collect::<Vec<_>>()`: whitespace-separated
tokens, with no empty tokens. -/
def splitWs (s : RStr) : List RStr := splitWsAux s []

/-- Rust `str::trim`: strip leading and trailing Unicode whitespace. -/
def rustTrim (s : RStr) : RStr :=
  ((s.dropWhile rustIsWhitespace).reverse.dropWhile rustIsWhitespace).reverse

example : splitWs (rs "  echo  hello world ") = [rs "echo", rs "hello", rs "world"] := by decide
example : byteLen (rs "echo hello world") = 16 := by decide
example : byteDrop 5 (rs "echo hello world") = some (rs "hello world") := by decide
example : rustTrim (rs "  hi ") = rs "hi" := by decide

/-!
## Cryptographic helper (`Crypto`, main.rs lines 79–127)

The AES-256-GCM primitive itself is the vendored `aes_gcm` crate, outside the
repository; the spec (§1, §4.1) states only what the system requires of it.
It is therefore a parameter of the embedding: an `AEAD` packages the
primitive's seal/open operations, and the properties the spec assigns to it
(a 16-byte tag, round trip under the same key and nonce) appear as hypotheses
of the theorems that need them. `Crypto.encrypt` / `Crypto.decrypt` embed the
repository's own wrapping code: fresh 12-byte nonce prepended on encrypt, the
`len < 12` guard and nonce/ciphertext split on decrypt.
-/

/-- Bytes: `Vec<u8>` / `&[u8]` values. -/
abbrev Bytes := List Nat

/-- The authenticated-encryption primitive the repository links against
(AES-256-GCM from the vendored crate). `seal key nonce pt` returns
ciphertext-plus-tag; `sealOpen key nonce ct` returns the plaintext or `none`
on an authentication failure. -/
structure AEAD where
  enc : Bytes → Bytes → Bytes → Bytes
  dec : Bytes → Bytes → Bytes → Option Bytes

namespace C2

namespace Crypto

/-- Embeds `Crypto::encrypt` (main.rs 98–112): draw a 12-byte nonce, seal,
and return `nonce ++ ciphertext`. The nonce, drawn from `OsRng` in the
source, is an explicit argument here. -/
def encrypt (A : AEAD) (key nonce data : Bytes) : Bytes :=
  nonce ++ A.enc key nonce data

/-- Embeds `Crypto::decrypt` (main.rs 115–126): reject inputs shorter than
12 bytes, split off the 12-byte nonce, and open the remainder. -/
def decrypt (A : AEAD) (key data : Bytes) : Except String Bytes :=
  if data.length < 12 then .error "Data too short"
  else
    match A.dec key (data.take 12) (data.drop 12) with
    | some pt => .ok pt
    | none => .error "Decryption failed"

end Crypto

/-!
## Wire message and data model (main.rs lines 26–73)
-/

/-- Rust enum `MessageType` (main.rs 47–56). -/
inductive MessageType
  | Register | Command | Response | FileUpload | FileDownload | Heartbeat | Disconnect
deriving DecidableEq, Repr

/-- Rust struct `Message` (main.rs 39–45). -/
structure Message where
  msg_type : MessageType
  payload : RStr
  timestamp : Nat
  agent_id : RStr
deriving DecidableEq, Repr

/-- Rust struct `Agent` (main.rs 26–36). -/
structure Agent where
  id : RStr
  address : RStr
  hostname : RStr
  username : RStr
  os : RStr
  connected : Bool
  last_seen : Nat
  encryption_key : Bytes
deriving DecidableEq, Repr

/-- Rust enum `TaskStatus` (main.rs 67–73). -/
inductive TaskStatus
  | Pending | Running | Completed | Failed
deriving DecidableEq, Repr

/-- Rust struct `Task` (main.rs 59–65). -/
structure Task where
  id : RStr
  command : RStr
  status : TaskStatus
  result : Option RStr
deriving DecidableEq, Repr

/-!
## The shared stores (`C2Server`, main.rs 133–136)

`HashMap<String, V>` modelled as an association list with unique keys.
-/

/-- Rust `HashMap::get` / lookup. -/
def alGet (k : RStr) : List (RStr × α) → Option α
  | [] => none
  | (k', v) :: m => if k' = k then some v else alGet k m

/-- Rust `HashMap::insert`: replace any entry with the same key. -/
def alInsert (k : RStr) (v : α) (m : List (RStr × α)) : List (RStr × α) :=
  (k, v) :: m.filter (fun p => ¬(p.1 = k))

/-- Rust `HashMap::remove`: drop the entry with the given key. -/
def alErase (k : RStr) (m : List (RStr × α)) : List (RStr × α) :=
  m.filter (fun p => ¬(p.1 = k))

/-- The control service's two shared stores (`C2Server.agents` /
`C2Server.tasks`, main.rs 133–136). The `Arc<Mutex<->>` wrappers serialize
individual map operations; each store operation below is one such atomic
access. -/
structure Srv where
  agents : List (RStr × Agent)
  tasks : List (RStr × List Task)
deriving DecidableEq, Repr

example : alGet (rs "a") (alInsert (rs "a") 1 []) = some 1 := by decide
example : alGet (rs "a") (alErase (rs "a") [(rs "a", 2), (rs "b", 3)]) = none := by decide

/-!
## Local command executor (`C2Agent::execute_command`, main.rs 567–647)

The executor consults the host environment (filesystem, working directory,
env vars); the outcome of each such external call is a field of `Env`. The
observable side effects it performs (`thread::sleep`, `set_current_dir`) are
returned as an `Effect` list. The function returns `none` exactly where the
Rust code panics: the byte slice `&command[5..]` in the `echo` arm when byte
offset 5 is not a character boundary.
-/

/-- Outcomes of the external calls `execute_command` makes. -/
structure Env where
  os : RStr
  hostname : RStr
  username : RStr
  currentDir : Option RStr
  readDirEntries : Except RStr (List RStr)
  chdir : RStr → Except RStr Unit
  readFile : RStr → Except RStr RStr

/-- Observable side effects of one `execute_command` call. -/
inductive Effect
  | slept (seconds : Nat)
  | chdir (path : RStr)
deriving DecidableEq, Repr

/-- Rust `Vec::<String>::join(sep)`. -/
def joinSep (sep : RStr) : List RStr → RStr
  | [] => []
  | [x] => x
  | x :: xs => x ++ sep ++ joinSep sep xs

/-- ASCII digit test, as in Rust's u64 parsing. -/
def isAsciiDigit (c : Char) : Bool := '0' ≤ c ∧ c ≤ '9'

/-- Decimal value of a digit string. -/
def digitsToNat (l : RStr) : Nat :=
  l.foldl (fun a c => a * 10 + (c.toNat - '0'.toNat)) 0

/-- Rust `str::parse::<u64>()`: an optional leading `+`, then one or more
ASCII digits, value below 2^64; anything else is `Err`. -/
def parseU64 (s : RStr) : Option Nat :=
  let t := match s with | '+' :: r => r | _ => s
  if t ≠ [] ∧ t.all isAsciiDigit ∧ digitsToNat t < 2 ^ 64 then
    some (digitsToNat t)
  else none

/-- Decimal rendering of a `Nat`, as Rust's `{}` formatting of an integer. -/
def natToRStr (n : Nat) : RStr := (Nat.repr n).toList

/-- A single-quote character, used in the unknown-command message. -/
def sq : RStr := [Char.ofNat 39]

/-- The fixed `help` text of the executor (main.rs 633–644), with Rust's
line-continuation escapes resolved. -/
def helpText : RStr :=
  rs "Available commands:\n- sysinfo: Display system information\n- pwd: Print working directory\n- whoami: Show current user\n- hostname: Show hostname\n- ls/dir: List directory contents\n- cd <path>: Change directory\n- echo <text>: Echo text\n- cat <file>: Read file contents\n- sleep <seconds>: Sleep for N seconds\n- help: Show this help"

/-- Embeds `C2Agent::execute_command` (main.rs 567–647). `agentId` is
`self.id`. Returns the result string and the effects performed, or `none`
where the Rust code panics. -/
def execute_command (env : Env) (agentId : RStr) (command : RStr) :
    Option (RStr × List Effect) :=
  let parts := splitWs command
  match parts with
  | [] => some (rs "Unknown command: " ++ sq ++ command ++ sq, [])
  | tok :: rest =>
    if tok = rs "sysinfo" then
      some (rs "OS: " ++ env.os ++ rs "\nHostname: " ++ env.hostname ++
            rs "\nUser: " ++ env.username ++ rs "\nAgent ID: " ++ agentId, [])
    else if tok = rs "pwd" then
      some (env.currentDir.getD (rs "unknown"), [])
    else if tok = rs "whoami" then
      some (env.username, [])
    else if tok = rs "hostname" then
      some (env.hostname, [])
    else if tok = rs "ls" ∨ tok = rs "dir" then
      some (match env.readDirEntries with
            | .ok entries => joinSep (rs "\n") entries
            | .error e => rs "Error: " ++ e, [])
    else if tok = rs "cd" then
      match rest with
      | path :: _ =>
        match env.chdir path with
        | .ok _ => some (rs "Changed to: " ++ path, [.chdir path])
        | .error e => some (rs "Error changing directory: " ++ e, [])
      | [] => some (rs "Usage: cd <path>", [])
    else if tok = rs "echo" then
      if byteLen command > 5 then
        (byteDrop 5 command).map (fun t => (t, []))
      else some ([], [])
    else if tok = rs "cat" then
      match rest with
      | file :: _ =>
        match env.readFile file with
        | .ok content => some (content, [])
        | .error e => some (rs "Error reading file: " ++ e, [])
      | [] => some (rs "Usage: cat <file>", [])
    else if tok = rs "sleep" then
      match rest with
      | arg :: _ =>
        match parseU64 arg with
        | some seconds =>
          some (rs "Slept for " ++ natToRStr seconds ++ rs " seconds",
                [.slept seconds])
        | none => some (rs "Invalid sleep duration", [])
      | [] => some (rs "Usage: sleep <seconds>", [])
    else if tok = rs "help" then
      some (helpText, [])
    else
      some (rs "Unknown command: " ++ sq ++ command ++ sq, [])

/-- A fixed environment used in concrete evaluations. -/
def env0 : Env where
  os := rs "linux"
  hostname := rs "host"
  username := rs "tester"
  currentDir := some (rs "/tmp")
  readDirEntries := .ok [rs "a.txt", rs "b.txt"]
  chdir := fun _ => .ok ()
  readFile := fun _ => .error (rs "No such file")

example : execute_command env0 (rs "agent_1") (rs "whoami") = some (rs "tester", []) := by decide
example : execute_command env0 (rs "agent_1") (rs "echo hello world") = some (rs "hello world", []) := by decide
example : execute_command env0 (rs "agent_1") (rs "foobar --x") =
    some (rs "Unknown command: " ++ sq ++ rs "foobar --x" ++ sq, []) := by decide
example : execute_command env0 (rs "agent_1") (rs "sleep 3") =
    some (rs "Slept for 3 seconds", [.slept 3]) := by decide
example : execute_command env0 (rs "agent_1") (rs "sleep") = some (rs "Usage: sleep <seconds>", []) := by decide
example : execute_command env0 (rs "agent_1") (rs "sleep x") = some (rs "Invalid sleep duration", []) := by decide
example : execute_command env0 (rs "agent_1")
    (rs "echo" ++ [Char.ofNat 0xA0] ++ rs "x") = none := by decide

/-!
## Per-connection handler (`handle_agent`, main.rs 199–431)

The handler's interaction with the socket and with serde_json is
parameterized: a `ReadRes`/`LoopEv` is the outcome of one `stream.read`, and
`parseMsg` / `parseReg` are the outcomes of `serde_json::from_slice::<Message>`
and `serde_json::from_str::<HashMap<String,String>>`.
-/

/-- Outcome of the single registration read (main.rs 221–231). -/
inductive ReadRes
  | err
  | bytes (b : Bytes)

/-- Embeds the Handshaking phase of `handle_agent` (main.rs 219–303): the
registration read, size guard, decrypt, envelope parse, kind check, payload
parse, and on success the registry upsert plus empty-task-list creation.
Returns the new stores and the registered agent (`none` on any failure,
where the Rust code returns before reaching the store mutations). -/
def handshake (A : AEAD) (parseMsg : Bytes → Option Message)
    (parseReg : RStr → Option (List (RStr × RStr)))
    (key : Bytes) (peerAddr : RStr) (now : Nat)
    (rd : ReadRes) (st : Srv) : Srv × Option Agent :=
  match rd with
  | .err => (st, none)
  | .bytes b =>
    if b.length = 0 then (st, none)
    else if b.length < 12 then (st, none)
    else
      match Crypto.decrypt A key b with
      | .error _ => (st, none)
      | .ok decrypted =>
        match parseMsg decrypted with
        | none => (st, none)
        | some msg =>
          if msg.msg_type = .Register then
            match parseReg msg.payload with
            | none => (st, none)
            | some reg_data =>
              let agent : Agent :=
                { id := msg.agent_id
                  address := peerAddr
                  hostname := (alGet (rs "hostname") reg_data).getD (rs "unknown")
                  username := (alGet (rs "username") reg_data).getD (rs "unknown")
                  os := (alGet (rs "os") reg_data).getD (rs "unknown")
                  connected := true
                  last_seen := now
                  encryption_key := key }
              (⟨alInsert msg.agent_id agent st.agents,
                alInsert msg.agent_id [] st.tasks⟩, some agent)
          else (st, none)

/-- Embeds the claim of main.rs 310–323: find the first `Pending` task, set
it `Running`, and return the updated clone. -/
def claimFirstPending : List Task → Option Task × List Task
  | [] => (none, [])
  | t :: ts =>
    if t.status = .Pending then
      ((some { t with status := .Running }), { t with status := .Running } :: ts)
    else
      let p := claimFirstPending ts
      (p.1, t :: p.2)

/-- The whole pending-task check at the top of each serving-loop iteration
(main.rs 310–323), lifted to the stores: one locked access to `tasks`. -/
def claimStep (aid : RStr) (st : Srv) : Option Task × Srv :=
  match alGet aid st.tasks with
  | some l =>
    let p := claimFirstPending l
    (p.1, { st with tasks := alInsert aid p.2 st.tasks })
  | none => (none, st)

/-- Embeds main.rs 378–384: mark the first `Running` task `Completed` and
store the payload as its result. -/
def completeRunning (payload : RStr) : List Task → List Task
  | [] => []
  | t :: ts =>
    if t.status = .Running then
      { t with status := .Completed, result := some payload } :: ts
    else t :: completeRunning payload ts

/-- The Response arm of the serving loop (main.rs 364–386), lifted to the
stores: one locked access to `tasks`. -/
def respStep (aid : RStr) (payload : RStr) (st : Srv) : Srv :=
  match alGet aid st.tasks with
  | some l => { st with tasks := alInsert aid (completeRunning payload l) st.tasks }
  | none => st

/-- The Heartbeat arm of the serving loop (main.rs 387–393): refresh
`last_seen`. -/
def hbStep (aid : RStr) (now : Nat) (st : Srv) : Srv :=
  match alGet aid st.agents with
  | some a => { st with agents := alInsert aid { a with last_seen := now } st.agents }
  | none => st

/-- Outcome of one serving-loop read (main.rs 347): a timeout-classified
error, a hard error, or `Ok(n)` with the buffer contents. -/
inductive LoopEv
  | timeoutErr
  | hardErr
  | bytes (b : Bytes)

/-- Embeds one iteration of the serving loop of `handle_agent`
(main.rs 308–422): claim a pending task (and send it), then handle one read
outcome. Returns the new stores and whether the loop breaks (reaching the
Closed state). `none` models a panic that aborts the handler thread: before
the Response arm updates any task, it logs the payload with
`format!("{}...", &response.payload[..100])` when the payload exceeds 100
bytes (main.rs 368–369), and that byte slice panics when byte offset 100 is
not a character boundary. -/
def loopIter (A : AEAD) (parseMsg : Bytes → Option Message)
    (key : Bytes) (aid : RStr) (now : Nat)
    (ev : LoopEv) (st : Srv) : Option (Srv × Bool) :=
  let st1 := (claimStep aid st).2
  match ev with
  | .timeoutErr => some (st1, false)
  | .hardErr => some (st1, true)
  | .bytes b =>
    if b.length = 0 then some (st1, true)
    else if b.length < 12 then some (st1, false)
    else
      match Crypto.decrypt A key b with
      | .error _ => some (st1, false)
      | .ok decrypted =>
        match parseMsg decrypted with
        | none => some (st1, false)
        | some m =>
          match m.msg_type with
          | .Response =>
            if byteLen m.payload > 100 then
              (byteTake 100 m.payload).map
                (fun _ => (respStep aid m.payload st1, false))
            else some (respStep aid m.payload st1, false)
          | .Heartbeat => some (hbStep aid now st1, false)
          | .Disconnect => some (st1, true)
          | _ => some (st1, false)

/-- Store state after one serving-loop iteration (the state component of
`loopIter`; unchanged on the panic case, where the thread dies). -/
def loopStateAfter (A : AEAD) (parseMsg : Bytes → Option Message)
    (key : Bytes) (aid : RStr) (now : Nat)
    (ev : LoopEv) (st : Srv) : Srv :=
  match loopIter A parseMsg key aid now ev st with
  | some (st', _) => st'
  | none => st

/-- Embeds the cleanup after the serving loop (main.rs 424–428): remove this
agent from the registry; the task store is not touched. -/
def cleanup (aid : RStr) (st : Srv) : Srv :=
  { st with agents := alErase aid st.agents }

/-!
## Operator console (`run_server_console`, main.rs 691–786, and
`C2Server::list_agents`, main.rs 174–193)

One call of `consoleStep` processes one line of operator input: trim, skip
blank lines, tokenize, dispatch. Output is modelled as the list of formatted
message strings printed during the step (the interactive prompt and the
purely-blank separator lines are not tracked). The returned `Bool` is true
exactly when the step terminates the process (the `exit` arm). `none` models
a panic: the byte slice `&result[..80]` in the `tasks` arm when byte offset
80 of a stored result is not a character boundary.
-/

/-- Rust format padding `{:<w}`: left-align to `w` characters. -/
def padRight (w : Nat) (s : RStr) : RStr :=
  s ++ List.replicate (w - s.length) ' '

/-- Rust `{:?}` rendering of `TaskStatus`. -/
def statusDebug : TaskStatus → RStr
  | .Pending => rs "Pending"
  | .Running => rs "Running"
  | .Completed => rs "Completed"
  | .Failed => rs "Failed"

/-- One horizontal box-drawing border of `C2Server::list_agents`: the given
corner characters around 62 `═` (U+2550) characters. -/
def boxBorder (l r : Char) : RStr :=
  [l] ++ List.replicate 62 (Char.ofNat 0x2550) ++ [r]

/-- The lines printed by `C2Server::list_agents` (main.rs 174–193); the
border and header strings are written as runs (corner, 62 `═`, corner; `║`,
22 spaces, title, 27 spaces, `║`; and so on) equal to the source's literals.
-/
def listAgentsLines (st : Srv) : List RStr :=
  [boxBorder (Char.ofNat 0x2554) (Char.ofNat 0x2557),
   [Char.ofNat 0x2551] ++ List.replicate 22 ' ' ++ rs "Active Agents" ++
     List.replicate 27 ' ' ++ [Char.ofNat 0x2551],
   boxBorder (Char.ofNat 0x2560) (Char.ofNat 0x2563)] ++
  (if st.agents = [] then
    [[Char.ofNat 0x2551] ++ rs "  No agents connected" ++ List.replicate 41 ' ' ++
      [Char.ofNat 0x2551]]
  else
    st.agents.flatMap (fun p =>
      [rs "║ ID: " ++ padRight 20 p.2.id ++ rs " OS: " ++ padRight 15 p.2.os ++ rs " ║",
       rs "║ User: " ++ padRight 18 p.2.username ++ rs " Host: " ++ padRight 14 p.2.hostname ++ rs " ║"])) ++
  [boxBorder (Char.ofNat 0x255A) (Char.ofNat 0x255D)]

/-- The console's fixed `help` output (main.rs 710–717). -/
def consoleHelpLines : List RStr :=
  [rs "Available commands:",
   rs "  agents           - List all connected agents",
   rs "  task <id> <cmd>  - Send command to agent",
   rs "  tasks <id>       - View tasks for agent",
   rs "  exit             - Shutdown server"]

/-- The task built by the console's `task` arm (main.rs 730–735). -/
def mkTask (now : Nat) (cmdText : RStr) : Task :=
  { id := rs "task_" ++ natToRStr now
    command := cmdText
    status := .Pending
    result := none }

/-- The result line of the `tasks` listing for one task (main.rs 758–767):
results longer than 80 bytes are truncated with `&result[..80]`, a byte
slice that panics (`none`) off a character boundary. -/
def resultLines (t : Task) : Option (List RStr) :=
  match t.result with
  | none => some []
  | some r =>
    if byteLen r > 80 then
      (byteTake 80 r).map (fun p => [rs "    Result: " ++ p ++ rs "..."])
    else some [rs "    Result: " ++ r]

/-- The per-task lines of the `tasks` listing (main.rs 756–768). -/
def taskLines : List Task → Option (List RStr)
  | [] => some []
  | t :: ts =>
    match resultLines t, taskLines ts with
    | some rl, some rest =>
      some ((rs "  [" ++ statusDebug t.status ++ rs "] " ++ t.id ++ rs " - " ++ t.command)
            :: rl ++ rest)
    | _, _ => none

/-- Embeds the dispatch on `parts` in `run_server_console` (main.rs 706–784).
`parts` is the whitespace tokenization of the trimmed input line; the Rust
code indexes `parts[0]`, so the (unreachable) empty-parts case is a panic. -/
def consoleDispatch (now : Nat) (st : Srv) (parts : List RStr) :
    Option (Srv × List RStr × Bool) :=
  match parts with
  | [] => none
  | command :: rest =>
    if command = rs "help" then
      some (st, consoleHelpLines, false)
    else if command = rs "agents" then
      some (st, listAgentsLines st, false)
    else if command = rs "task" then
      match rest with
      | aid :: c :: more =>
        let cmdText := joinSep (rs " ") (c :: more)
        match alGet aid st.tasks with
        | some l =>
          some ({ st with tasks := alInsert aid (l ++ [mkTask now cmdText]) st.tasks },
                [rs "[+] Task queued for " ++ aid ++ rs ": " ++ cmdText], false)
        | none => some (st, [rs "[-] Agent not found: " ++ aid], false)
      | _ => some (st, [rs "Usage: task <agent_id> <command>"], false)
    else if command = rs "tasks" then
      match rest with
      | aid :: _ =>
        match alGet aid st.tasks with
        | some l =>
          (taskLines l).map (fun ls =>
            (st, (rs "Tasks for " ++ aid ++ rs ":") :: ls, false))
        | none => some (st, [rs "[-] Agent not found: " ++ aid], false)
      | [] => some (st, [rs "Usage: tasks <agent_id>"], false)
    else if command = rs "exit" then
      some (st, [rs "[*] Shutting down server..."], true)
    else
      some (st, [rs "Unknown command: " ++ command ++ rs ". Type " ++ sq ++
                 rs "help" ++ sq ++ rs " for available commands."], false)

/-- Embeds one pass of the console loop body on one line of input
(main.rs 698–784): trim, skip blank input, tokenize, dispatch. -/
def consoleStep (now : Nat) (st : Srv) (input : RStr) :
    Option (Srv × List RStr × Bool) :=
  let t := rustTrim input
  if t = [] then some (st, [], false)
  else consoleDispatch now st (splitWs t)

/-- An agent record used in concrete evaluations. -/
def agentA : Agent :=
  { id := rs "a", address := rs "127.0.0.1:5000", hostname := rs "h"
    username := rs "u", os := rs "linux", connected := true
    last_seen := 100, encryption_key := List.replicate 32 7 }

example :
    consoleStep 5 ⟨[], [(rs "a", [])]⟩ (rs "task a whoami") =
      some (⟨[], [(rs "a", [mkTask 5 (rs "whoami")])]⟩,
        [rs "[+] Task queued for a: whoami"], false) := by decide
example :
    consoleStep 5 ⟨[], []⟩ (rs "task a whoami") =
      some (⟨[], []⟩, [rs "[-] Agent not found: a"], false) := by decide
example :
    consoleStep 5 ⟨[], []⟩ (rs "tasks a") =
      some (⟨[], []⟩, [rs "[-] Agent not found: a"], false) := by decide
example : consoleStep 5 ⟨[], []⟩ (rs "   ") = some (⟨[], []⟩, [], false) := by decide
example : consoleStep 5 ⟨[], []⟩ (rs "exit") =
    some (⟨[], []⟩, [rs "[*] Shutting down server..."], true) := by decide

/-!
## Claims
-/

/-- C1: For every 32-byte key and every byte payload (including the empty
payload), `decrypt` applied to the output of `encrypt` under the same key
returns the original payload, and the length of every `encrypt` output
equals the payload length plus 28 (12 nonce bytes plus 16 tag bytes). The
two AEAD hypotheses are the properties the spec (§4.1) requires of the
vendored AES-256-GCM primitive: a 16-byte trailing tag, and opening what was
sealed under the same key and nonce. -/
theorem C1_encrypt_decrypt_roundtrip_and_length
    (A : AEAD) (key nonce data : Bytes)
    (hkey : key.length = 32) (hnonce : nonce.length = 12)
    (htag : ∀ k n p, (A.enc k n p).length = p.length + 16)
    (hround : ∀ k n p, A.dec k n (A.enc k n p) = some p) :
    Crypto.decrypt A key (Crypto.encrypt A key nonce data) = .ok data ∧
    (Crypto.encrypt A key nonce data).length = data.length + 28 := by
  have hlen : (Crypto.encrypt A key nonce data).length = data.length + 28 := by
    simp only [Crypto.encrypt, List.length_append, htag, hnonce]
    omega
  refine ⟨?_, hlen⟩
  unfold Crypto.decrypt
  rw [if_neg (by omega)]
  have ht : (Crypto.encrypt A key nonce data).take 12 = nonce := by
    unfold Crypto.encrypt
    rw [← hnonce, List.take_left]
  have hd : (Crypto.encrypt A key nonce data).drop 12 = A.enc key nonce data := by
    unfold Crypto.encrypt
    rw [← hnonce, List.drop_left]
  rw [ht, hd, hround]

/-- A concrete instance of the AEAD interface satisfying the two laws used
by C1, for evaluating the theorem at a concrete input. -/
def aead0 : AEAD where
  enc := fun _ _ p => p ++ List.replicate 16 0
  dec := fun _ _ c => if 16 ≤ c.length then some (c.take (c.length - 16)) else none

/-- Witness for C1 at a concrete key, nonce and payload. -/
theorem C1_encrypt_decrypt_roundtrip_and_length_witness :
    Crypto.decrypt aead0 (List.replicate 32 0)
      (Crypto.encrypt aead0 (List.replicate 32 0) (List.replicate 12 0) [1, 2, 3]) =
      .ok [1, 2, 3] ∧
    (Crypto.encrypt aead0 (List.replicate 32 0) (List.replicate 12 0) [1, 2, 3]).length =
      3 + 28 :=
  C1_encrypt_decrypt_roundtrip_and_length aead0 (List.replicate 32 0)
    (List.replicate 12 0) [1, 2, 3]
    (by simp) (by simp)
    (by intro k n p; simp [aead0])
    (by intro k n p; simp [aead0])

/-- C2: For every connection whose handshake fails (zero-byte read, a
registration read shorter than 12 bytes, decryption failure, envelope
deserialization failure, a message kind other than Register, or a payload
that does not deserialize as a string-to-string mapping — all the cases in
which the handshake produces no registered agent), the per-connection
handler terminates without inserting any entry into the agent registry and
without creating any task list: the stores are exactly what they were. -/
theorem C2_handshake_failure_no_registry_mutation
    (A : AEAD) (parseMsg : Bytes → Option Message)
    (parseReg : RStr → Option (List (RStr × RStr)))
    (key : Bytes) (peerAddr : RStr) (now : Nat) (rd : ReadRes) (st : Srv)
    (hfail : (handshake A parseMsg parseReg key peerAddr now rd st).2 = none) :
    (handshake A parseMsg parseReg key peerAddr now rd st).1 = st := by
  cases rd with
  | err => rfl
  | bytes b =>
    by_cases h0 : b.length = 0
    · simp [handshake, h0]
    · by_cases h12 : b.length < 12
      · simp [handshake, h0, h12]
      · rcases hdec : Crypto.decrypt A key b with e | d
        · simp [handshake, h0, h12, hdec]
        · rcases hmsg : parseMsg d with _ | m
          · simp [handshake, h0, h12, hdec, hmsg]
          · by_cases hreg : m.msg_type = MessageType.Register
            · rcases hpr : parseReg m.payload with _ | r
              · simp [handshake, h0, h12, hdec, hmsg, hreg, hpr]
              · exfalso
                simp [handshake, h0, h12, hdec, hmsg, hreg, hpr] at hfail
            · simp [handshake, h0, h12, hdec, hmsg, hreg]

/-- Witness for C2 at a concrete failing handshake (a zero-byte read). -/
theorem C2_handshake_failure_no_registry_mutation_witness :
    (handshake aead0 (fun _ => none) (fun _ => none) (List.replicate 32 0)
      (rs "127.0.0.1:5000") 0 (.bytes []) ⟨[], []⟩).1 = (⟨[], []⟩ : Srv) :=
  C2_handshake_failure_no_registry_mutation aead0 (fun _ => none) (fun _ => none)
    (List.replicate 32 0) (rs "127.0.0.1:5000") 0 (.bytes []) ⟨[], []⟩ (by rfl)

/-- Number of tasks in `Running` state. -/
def countRunning (l : List Task) : Nat :=
  (l.filter (fun t => t.status = TaskStatus.Running)).length

/-- Store state after the console processes one line (the state component of
`consoleStep`; unchanged on the unreachable panic case). -/
def consoleStateAfter (now : Nat) (st : Srv) (input : RStr) : Srv :=
  match consoleStep now st input with
  | some (st', _, _) => st'
  | none => st

/-- State just after an agent `"a"` registered: one registry entry and an
empty task list, exactly what the successful `handshake` branch creates. -/
def c3State0 : Srv := ⟨[(rs "a", agentA)], [(rs "a", [])]⟩

/-- State after the operator enqueues two tasks (`task a c1`, `task a c2`)
and the serving loop then runs two iterations whose reads are
timeout-classified (the agent is busy, e.g. executing a `sleep`): each
iteration's pending-task check (main.rs 310–323) claims one Pending task
without looking at the Running one. -/
def c3State4 : Srv :=
  loopStateAfter aead0 (fun _ => none) [] (rs "a") 4 .timeoutErr
    (loopStateAfter aead0 (fun _ => none) [] (rs "a") 3 .timeoutErr
      (consoleStateAfter 2 (consoleStateAfter 1 c3State0 (rs "task a c1"))
        (rs "task a c2")))

/-- Counterexample to C3: after the reachable event sequence of `c3State4`
(two console enqueues, then two timeout loop iterations), agent `"a"` has
two tasks in `Running` state simultaneously — the handler claimed the second
Pending task while the first was still Running. -/
theorem C3_counterexample_two_running :
    alGet (rs "a") c3State4.tasks =
      some [{ id := rs "task_1", command := rs "c1",
              status := .Running, result := none },
            { id := rs "task_2", command := rs "c2",
              status := .Running, result := none }] ∧
    countRunning ((alGet (rs "a") c3State4.tasks).getD []) = 2 := by decide

/-- C3 amended: the handler claims at most one Pending task per serving-loop
iteration — the claim step either leaves the task list unchanged (no Pending
task exists) or marks exactly the first Pending task Running — but it does
not wait for a Running task to leave `Running` before claiming the next
Pending one, so several tasks of one agent can be Running at once (see
`C3_counterexample_two_running`). -/
theorem C3_amended_at_most_one_claim_per_iteration (l : List Task) :
    countRunning (claimFirstPending l).2 ≤ countRunning l + 1 ∧
    ((claimFirstPending l).2 = l ∨
      ∃ i t, l[i]? = some t ∧ t.status = TaskStatus.Pending ∧
        (∀ j u, j < i → l[j]? = some u → ¬u.status = TaskStatus.Pending) ∧
        (claimFirstPending l).2 = l.set i { t with status := TaskStatus.Running }) := by
  induction l with
  | nil => simp [claimFirstPending, countRunning]
  | cons t ts ih =>
    by_cases h : t.status = TaskStatus.Pending
    · constructor
      · simp [claimFirstPending, h, countRunning, List.filter]
      · right
        exact ⟨0, t, by simp, h,
          fun j u hj _ => absurd hj (Nat.not_lt_zero j),
          by simp [claimFirstPending, h]⟩
    · constructor
      · have h1 := ih.1
        by_cases hr : t.status = TaskStatus.Running
        · simp [claimFirstPending, h, countRunning, List.filter, hr] at h1 ⊢
          omega
        · simp [claimFirstPending, h, countRunning, List.filter, hr] at h1 ⊢
          omega
      · rcases ih.2 with heq | ⟨i, u, hget, hup, hfirst, hset⟩
        · left
          simp [claimFirstPending, h, heq]
        · right
          refine ⟨i + 1, u, by simpa using hget, hup, ?_,
            by simp [claimFirstPending, h, hset]⟩
          intro j v hj hv
          cases j with
          | zero =>
            simp only [List.getElem?_cons_zero, Option.some.injEq] at hv
            subst hv
            exact h
          | succ j =>
            exact hfirst j v (Nat.lt_of_succ_lt_succ hj) (by simpa using hv)

/-- Witness for C3 (amended) at a concrete two-task list: one Pending task
among the two is claimed, so the Running count rises by exactly one. -/
theorem C3_amended_at_most_one_claim_per_iteration_witness :
    countRunning (claimFirstPending
      [{ id := rs "task_1", command := rs "c1",
         status := .Running, result := none },
       { id := rs "task_2", command := rs "c2",
         status := .Pending, result := none }]).2 ≤
    countRunning
      [{ id := rs "task_1", command := rs "c1",
         status := .Running, result := none },
       { id := rs "task_2", command := rs "c2",
         status := .Pending, result := none }] + 1 :=
  (C3_amended_at_most_one_claim_per_iteration
    [{ id := rs "task_1", command := rs "c1",
       status := .Running, result := none },
     { id := rs "task_2", command := rs "c2",
       status := .Pending, result := none }]).1

/-- Lookup after erasing the same key finds nothing. -/
theorem alGet_alErase_self (k : RStr) (m : List (RStr × α)) :
    alGet k (alErase k m) = none := by
  induction m with
  | nil => rfl
  | cons p m ih =>
    by_cases h : p.1 = k
    · simpa [alErase, h] using ih
    · simpa [alErase, alGet, h] using ih

/-- Lookup of a different key is unaffected by an erase. -/
theorem alGet_alErase_other (k k' : RStr) (m : List (RStr × α)) (h : k ≠ k') :
    alGet k (alErase k' m) = alGet k m := by
  induction m with
  | nil => rfl
  | cons p m ih =>
    have hne : ¬(k' = k) := fun hc => h hc.symm
    by_cases hp : p.1 = k'
    · have hdrop : alErase k' (p :: m) = alErase k' m := by
        simp [alErase, List.filter_cons, hp]
      rw [hdrop, ih]
      simp [alGet, hp, hne]
    · have hkeep : alErase k' (p :: m) = p :: alErase k' m := by
        simp [alErase, List.filter_cons, hp]
      rw [hkeep]
      by_cases hk : p.1 = k
      · simp [alGet, hk]
      · simp [alGet, hk, ih]

/-- C4: When a connection handler reaches its Closed state (for any reason),
it removes exactly that agent's entry from the registry — the lookup of that
id afterward finds nothing, and every other registry entry is untouched —
while leaving the task store unchanged: the agent's task list, with all task
statuses and results, is still present under its id. -/
theorem C4_close_removes_only_registry_entry (aid : RStr) (st : Srv) :
    (cleanup aid st).tasks = st.tasks ∧
    alGet aid (cleanup aid st).tasks = alGet aid st.tasks ∧
    alGet aid (cleanup aid st).agents = none ∧
    (∀ k, k ≠ aid → alGet k (cleanup aid st).agents = alGet k st.agents) :=
  ⟨rfl, rfl, alGet_alErase_self aid st.agents,
   fun k hk => alGet_alErase_other k aid st.agents hk⟩

/-- A concrete two-agent state with a completed task, for the C4 witness. -/
def c4State : Srv :=
  ⟨[(rs "a", agentA), (rs "b", agentA)],
   [(rs "a", [{ id := rs "task_1", command := rs "whoami",
                status := .Completed, result := some (rs "tester") }])]⟩

/-- Witness for C4 at `c4State`: closing agent `"a"` keeps the task store,
empties the `"a"` registry lookup, and leaves agent `"b"` alone. -/
theorem C4_close_removes_only_registry_entry_witness :
    (cleanup (rs "a") c4State).tasks = c4State.tasks ∧
    alGet (rs "a") (cleanup (rs "a") c4State).tasks = alGet (rs "a") c4State.tasks ∧
    alGet (rs "a") (cleanup (rs "a") c4State).agents = none ∧
    alGet (rs "b") (cleanup (rs "a") c4State).agents = alGet (rs "b") c4State.agents := by
  have h := C4_close_removes_only_registry_entry (rs "a") c4State
  exact ⟨h.1, h.2.1, h.2.2.1, h.2.2.2 (rs "b") (by decide)⟩

/-- Counterexample to C5: on the command text `echo`, U+00A0 (NO-BREAK
SPACE, a Unicode whitespace character, so `split_whitespace` yields the
tokens `echo` and `x`), `x`, the executor panics — `command.len()` is 7 > 5,
and the byte slice `&command[5..]` (main.rs 606) falls inside the two-byte
UTF-8 encoding of U+00A0. The fault propagates to the caller instead of a
descriptive string being returned. -/
theorem C5_counterexample_echo_slice_panics :
    execute_command env0 (rs "agent_1") (rs "echo" ++ [Char.ofNat 0xA0] ++ rs "x") = none ∧
    splitWs (rs "echo" ++ [Char.ofNat 0xA0] ++ rs "x") = [rs "echo", rs "x"] := by
  decide

/-- C5 amended: for every input string such that, whenever the first
whitespace-delimited token is `echo` and the text is longer than 5 bytes,
byte offset 5 falls on a character boundary (true in particular of every
ASCII command), the local command executor returns a string result and never
propagates a fault to its caller; every failure path yields a descriptive
string. The boundary proviso is exactly what the counterexample forces. -/
theorem C5_amended_executor_total (env : Env) (agentId command : RStr)
    (hsafe : (splitWs command).head? = some (rs "echo") → byteLen command > 5 →
      (byteDrop 5 command).isSome = true) :
    (execute_command env agentId command).isSome = true := by
  rcases hp : splitWs command with _ | ⟨tok, rest⟩
  · simp [execute_command, hp]
  · simp only [execute_command, hp]
    by_cases h1 : tok = rs "sysinfo"
    · rw [if_pos h1]; rfl
    rw [if_neg h1]
    by_cases h2 : tok = rs "pwd"
    · rw [if_pos h2]; rfl
    rw [if_neg h2]
    by_cases h3 : tok = rs "whoami"
    · rw [if_pos h3]; rfl
    rw [if_neg h3]
    by_cases h4 : tok = rs "hostname"
    · rw [if_pos h4]; rfl
    rw [if_neg h4]
    by_cases h5 : tok = rs "ls" ∨ tok = rs "dir"
    · rw [if_pos h5]; rfl
    rw [if_neg h5]
    by_cases h6 : tok = rs "cd"
    · rw [if_pos h6]
      cases rest with
      | nil => rfl
      | cons path more =>
        rcases hc : env.chdir path with u | e <;> simp [hc]
    rw [if_neg h6]
    by_cases h7 : tok = rs "echo"
    · rw [if_pos h7]
      by_cases hgt : 5 < byteLen command
      · rw [if_pos hgt]
        have hs : (byteDrop 5 command).isSome = true := by
          refine hsafe ?_ hgt
          rw [hp, h7]
          rfl
        rcases Option.isSome_iff_exists.mp hs with ⟨v, hv⟩
        rw [hv]
        rfl
      · rw [if_neg hgt]; rfl
    rw [if_neg h7]
    by_cases h8 : tok = rs "cat"
    · rw [if_pos h8]
      cases rest with
      | nil => rfl
      | cons file more =>
        rcases hf : env.readFile file with content | e <;> simp [hf]
    rw [if_neg h8]
    by_cases h9 : tok = rs "sleep"
    · rw [if_pos h9]
      cases rest with
      | nil => rfl
      | cons arg more =>
        rcases hu : parseU64 arg with _ | seconds <;> simp [hu]
    rw [if_neg h9]
    by_cases h10 : tok = rs "help"
    · rw [if_pos h10]; rfl
    rw [if_neg h10]
    rfl

/-- Witness for C5 (amended) at the spec's own example input. -/
theorem C5_amended_executor_total_witness :
    (execute_command env0 (rs "agent_1") (rs "echo hello world")).isSome = true :=
  C5_amended_executor_total env0 (rs "agent_1") (rs "echo hello world")
    (fun _ _ => by decide)

/-- Counterexample to C6: the command text U+00A0 (NO-BREAK SPACE), `echo` —
5 characters, 6 UTF-8 bytes, first whitespace-delimited token `echo`. The
claim (character-index semantics: 5 characters or shorter returns the empty
string, i.e. the text dropped of its first 5 characters) demands the empty
string, but the code slices at BYTE index 5 (main.rs 605–606) and returns
`"o"`. -/
theorem C6_counterexample_char_vs_byte_index :
    splitWs ([Char.ofNat 0xA0] ++ rs "echo") = [rs "echo"] ∧
    ([Char.ofNat 0xA0] ++ rs "echo").length = 5 ∧
    ([Char.ofNat 0xA0] ++ rs "echo").drop 5 = [] ∧
    execute_command env0 (rs "agent_1") ([Char.ofNat 0xA0] ++ rs "echo") =
      some (rs "o", []) ∧
    ¬ execute_command env0 (rs "agent_1") ([Char.ofNat 0xA0] ++ rs "echo") =
      some (([Char.ofNat 0xA0] ++ rs "echo").drop 5, []) := by decide

/-- C6 amended: for every command string whose first whitespace-delimited
token is `echo`, the executor returns the substring of the original command
text starting at BYTE index 5 (panicking if byte offset 5 is not a character
boundary), and returns the empty string when the original text is 5 BYTES or
shorter; in particular `echo hello world` (16 bytes) returns `hello world`.
-/
theorem C6_amended_echo_byte_semantics (env : Env) (agentId command : RStr)
    (hech : (splitWs command).head? = some (rs "echo")) :
    (byteLen command ≤ 5 → execute_command env agentId command = some ([], [])) ∧
    (byteLen command > 5 →
      execute_command env agentId command =
        (byteDrop 5 command).map (fun t => (t, []))) := by
  rcases hp : splitWs command with _ | ⟨tok, rest⟩
  · rw [hp] at hech
    exact absurd hech (by simp)
  · rw [hp] at hech
    have htok : tok = rs "echo" := by simpa using hech
    subst htok
    constructor
    · intro hle
      have h5 : ¬(5 < byteLen command) := by omega
      simp +decide [execute_command, hp, h5]
    · intro hgt
      simp +decide [execute_command, hp, hgt]

/-- Witness for C6 (amended) at the spec's own 16-byte example. -/
theorem C6_amended_echo_byte_semantics_witness :
    execute_command env0 (rs "agent_1") (rs "echo hello world") =
      (byteDrop 5 (rs "echo hello world")).map (fun t => (t, [])) :=
  (C6_amended_echo_byte_semantics env0 (rs "agent_1") (rs "echo hello world")
    (by decide)).2 (by decide)

/-- The head of a `dropWhile` result fails the predicate. -/
theorem dropWhile_head_false (p : Char → Bool) (s : RStr) (c : Char) (t : RStr)
    (h : s.dropWhile p = c :: t) : p c = false := by
  induction s with
  | nil => simp at h
  | cons a as ih =>
    by_cases hp : p a
    · rw [List.dropWhile_cons_of_pos hp] at h
      exact ih h
    · rw [List.dropWhile_cons_of_neg hp] at h
      cases h
      simpa using hp

/-- Dropping from a list ending in an element that fails the predicate keeps
that final element. -/
theorem dropWhile_append_singleton (p : Char → Bool) (l : RStr) (c : Char)
    (hc : p c = false) : ∃ w, List.dropWhile p (l ++ [c]) = w ++ [c] := by
  induction l with
  | nil => exact ⟨[], by simp [List.dropWhile_cons, hc]⟩
  | cons a as ih =>
    by_cases hp : p a
    · simpa [List.dropWhile_cons, hp] using ih
    · exact ⟨a :: as, by simp [List.dropWhile_cons, hp]⟩

/-- A trimmed string is empty or starts with a non-whitespace character. -/
theorem rustTrim_eq_nil_or_head_not_ws (s : RStr) :
    rustTrim s = [] ∨
    ∃ c t, rustTrim s = c :: t ∧ rustIsWhitespace c = false := by
  rcases h : s.dropWhile rustIsWhitespace with _ | ⟨c, u⟩
  · left
    simp [rustTrim, h]
  · right
    have hc : rustIsWhitespace c = false := dropWhile_head_false _ s c u h
    obtain ⟨w, hw⟩ := dropWhile_append_singleton rustIsWhitespace u.reverse c hc
    refine ⟨c, w.reverse, ?_, hc⟩
    have hrw : rustTrim s = ((c :: u).reverse.dropWhile rustIsWhitespace).reverse := by
      simp [rustTrim, h]
    rw [hrw, show (c :: u).reverse = u.reverse ++ [c] by simp, hw]
    simp

/-- The tokenizer's accumulator variant never returns an empty token list
when the accumulator is nonempty. -/
theorem splitWsAux_ne_nil (s : RStr) : ∀ acc : RStr, acc ≠ [] → splitWsAux s acc ≠ [] := by
  induction s with
  | nil =>
    intro acc h
    cases acc with
    | nil => exact absurd rfl h
    | cons a as => simp [splitWsAux]
  | cons c cs ih =>
    intro acc h
    by_cases hw : rustIsWhitespace c
    · cases acc with
      | nil => exact absurd rfl h
      | cons a as => simp [splitWsAux, hw]
    · simpa [splitWsAux, hw] using ih (c :: acc) (by simp)

/-- A string starting with a non-whitespace character has at least one
token. -/
theorem splitWs_ne_nil_of_head_not_ws (c : Char) (cs : RStr)
    (hc : rustIsWhitespace c = false) : splitWs (c :: cs) ≠ [] := by
  unfold splitWs
  rw [splitWsAux]
  rw [if_neg (by simp [hc])]
  exact splitWsAux_ne_nil cs [c] (by simp)

/-- A successful lookup is a member of the association list. -/
theorem alGet_mem (k : RStr) (m : List (RStr × α)) (v : α)
    (h : alGet k m = some v) : (k, v) ∈ m := by
  induction m with
  | nil => simp [alGet] at h
  | cons p m ih =>
    rcases p with ⟨k', v'⟩
    by_cases hp : k' = k
    · rw [alGet, if_pos hp] at h
      cases h
      subst hp
      exact List.mem_cons_self _ _
    · rw [alGet, if_neg hp] at h
      exact List.mem_cons_of_mem _ (ih h)

/-- When every result of a task list renders, the whole `tasks` listing
renders. -/
theorem taskLines_total (l : List Task)
    (h : ∀ t ∈ l, (resultLines t).isSome = true) :
    (taskLines l).isSome = true := by
  induction l with
  | nil => rfl
  | cons t ts ih =>
    have h1 := h t (by simp)
    have h2 := ih (fun u hu => h u (by simp [hu]))
    rcases Option.isSome_iff_exists.mp h1 with ⟨rl, hrl⟩
    rcases Option.isSome_iff_exists.mp h2 with ⟨rest, hrest⟩
    simp [taskLines, hrl, hrest]

/-- The console dispatch on a nonempty token list never panics when every
stored task result renders. -/
theorem consoleDispatch_cons_total (now : Nat) (st : Srv) (cmd : RStr)
    (rest : List RStr)
    (hres : ∀ e ∈ st.tasks, ∀ t ∈ e.2, (resultLines t).isSome = true) :
    (consoleDispatch now st (cmd :: rest)).isSome = true := by
  simp only [consoleDispatch]
  by_cases h1 : cmd = rs "help"
  · rw [if_pos h1]; rfl
  rw [if_neg h1]
  by_cases h2 : cmd = rs "agents"
  · rw [if_pos h2]; rfl
  rw [if_neg h2]
  by_cases h3 : cmd = rs "task"
  · rw [if_pos h3]
    rcases rest with _ | ⟨aid, _ | ⟨c, more⟩⟩
    · rfl
    · rfl
    · rcases hg : alGet aid st.tasks with _ | l <;> simp [hg]
  rw [if_neg h3]
  by_cases h4 : cmd = rs "tasks"
  · rw [if_pos h4]
    rcases rest with _ | ⟨aid, more⟩
    · rfl
    · rcases hg : alGet aid st.tasks with _ | l
      · simp [hg]
      · have hmem := alGet_mem aid st.tasks l hg
        have htl := taskLines_total l (fun t ht => hres (aid, l) hmem t ht)
        rcases Option.isSome_iff_exists.mp htl with ⟨ls, hls⟩
        simp [hg, hls]
  rw [if_neg h4]
  by_cases h5 : cmd = rs "exit"
  · rw [if_pos h5]; rfl
  rw [if_neg h5]
  rfl

/-- A task result of 81 UTF-8 bytes whose byte 80 falls inside the two-byte
encoding of U+00E9: 79 ASCII characters followed by one two-byte character.
An agent produces exactly this as a Response payload, e.g. from `cat` of a
file with such contents or `echo` of such an argument. -/
def badResult : RStr := List.replicate 79 'a' ++ [Char.ofNat 0xE9]

/-- A reachable store state holding `badResult`: starting from a registered
agent `"a"` with an empty task list, the operator enqueues one task
(`task a cat data.bin`), and one serving-loop iteration claims it and then
receives a Response envelope whose payload is `badResult`, completing the
task with that result. -/
def c7State : Srv :=
  loopStateAfter aead0
    (fun _ => some ⟨.Response, badResult, 0, rs "a"⟩)
    (List.replicate 32 0) (rs "a") 2
    (.bytes (List.replicate 28 0))
    (consoleStateAfter 1 ⟨[(rs "a", agentA)], [(rs "a", [])]⟩
      (rs "task a cat data.bin"))

/-- Counterexample to C7: in the reachable state `c7State` the well-formed
console command `tasks a` panics — the result line truncation slices
`&result[..80]` (main.rs 762) inside a two-byte character — rather than
printing a message and continuing. -/
theorem C7_counterexample_tasks_listing_panics :
    alGet (rs "a") c7State.tasks =
      some [{ id := rs "task_1", command := rs "cat data.bin",
              status := .Completed, result := some badResult }] ∧
    byteLen badResult = 81 ∧
    consoleStep 3 c7State (rs "tasks a") = none := by decide

/-- C7 amended: for every line of operator input, provided every task result
stored in the task store renders (its byte length is at most 80, or byte
offset 80 falls on a character boundary — true in particular of every ASCII
result), the console loop either succeeds or prints a human-readable message
and continues: no console command raises an unhandled fault, and malformed
input always degrades to a printed message. The rendering proviso is exactly
what the counterexample forces. -/
theorem C7_amended_console_step_total (now : Nat) (st : Srv) (input : RStr)
    (hres : ∀ e ∈ st.tasks, ∀ t ∈ e.2, (resultLines t).isSome = true) :
    (consoleStep now st input).isSome = true := by
  unfold consoleStep
  rcases rustTrim_eq_nil_or_head_not_ws input with h0 | ⟨c, t, heq, hc⟩
  · simp [h0]
  · rw [heq]
    rw [if_neg (by simp)]
    rcases hp : splitWs (c :: t) with _ | ⟨cmd, rest⟩
    · exact absurd hp (splitWs_ne_nil_of_head_not_ws c t hc)
    · exact consoleDispatch_cons_total now st cmd rest hres

/-- Witness for C7 (amended) at a concrete state and input line. -/
theorem C7_amended_console_step_total_witness :
    (consoleStep 3 (⟨[], [(rs "a", [mkTask 1 (rs "whoami")])]⟩ : Srv)
      (rs "tasks a")).isSome = true :=
  C7_amended_console_step_total 3 ⟨[], [(rs "a", [mkTask 1 (rs "whoami")])]⟩
    (rs "tasks a") (by decide)

/-- C8: For every agent identifier absent from the task store, the console
commands `task <agent-id> <command>` and `tasks <agent-id>` each report
"Agent not found" and create no entry in the task store or the registry as a
side effect: the returned state is exactly the input state. -/
theorem C8_unknown_agent_guard (now : Nat) (st : Srv) (aid : RStr)
    (h : alGet aid st.tasks = none) :
    (∀ c more, consoleDispatch now st (rs "task" :: aid :: c :: more) =
      some (st, [rs "[-] Agent not found: " ++ aid], false)) ∧
    (∀ more, consoleDispatch now st (rs "tasks" :: aid :: more) =
      some (st, [rs "[-] Agent not found: " ++ aid], false)) := by
  constructor
  · intro c more
    simp +decide [consoleDispatch, h]
  · intro more
    simp +decide [consoleDispatch, h]

/-- Witness for C8 at the empty store and agent id `x`. -/
theorem C8_unknown_agent_guard_witness :
    consoleDispatch 0 ⟨[], []⟩ (rs "task" :: rs "x" :: rs "whoami" :: []) =
      some (⟨[], []⟩, [rs "[-] Agent not found: " ++ rs "x"], false) ∧
    consoleDispatch 0 ⟨[], []⟩ (rs "tasks" :: rs "x" :: []) =
      some (⟨[], []⟩, [rs "[-] Agent not found: " ++ rs "x"], false) :=
  ⟨(C8_unknown_agent_guard 0 ⟨[], []⟩ (rs "x") (by rfl)).1 (rs "whoami") [],
   (C8_unknown_agent_guard 0 ⟨[], []⟩ (rs "x") (by rfl)).2 []⟩

/-- Counterexample to C9: invoking the sleep command with a missing argument
returns the usage string `Usage: sleep <seconds>` (main.rs 630), not an
"invalid duration" string (the executor's only invalid-duration string is
`Invalid sleep duration`, main.rs 627). Additionally, `sleep
18446744073709551616` — a valid non-negative integer, but 2^64 — does not
block for that many seconds and then confirm, as the claim demands: the u64
parse fails and the executor returns `Invalid sleep duration` without
sleeping. -/
theorem C9_counterexample_sleep_missing_and_overflow :
    execute_command env0 (rs "agent_1") (rs "sleep") =
      some (rs "Usage: sleep <seconds>", []) ∧
    ¬ execute_command env0 (rs "agent_1") (rs "sleep") =
      some (rs "Invalid sleep duration", []) ∧
    execute_command env0 (rs "agent_1") (rs "sleep 18446744073709551616") =
      some (rs "Invalid sleep duration", []) := by decide

/-- C9 amended: for every invocation of the executor's sleep command, an
argument that parses as a non-negative 64-bit integer `n` blocks for `n`
seconds (the call performs the sleep effect) and returns the confirmation
string; a missing argument returns the usage string
`Usage: sleep <seconds>`; an argument that does not parse as a non-negative
64-bit integer returns the string `Invalid sleep duration`. -/
theorem C9_amended_sleep_semantics (env : Env) (agentId command : RStr)
    (rest : List RStr) (hsp : splitWs command = rs "sleep" :: rest) :
    (rest = [] →
      execute_command env agentId command = some (rs "Usage: sleep <seconds>", [])) ∧
    (∀ arg more, rest = arg :: more →
      (∀ n, parseU64 arg = some n →
        execute_command env agentId command =
          some (rs "Slept for " ++ natToRStr n ++ rs " seconds", [.slept n])) ∧
      (parseU64 arg = none →
        execute_command env agentId command =
          some (rs "Invalid sleep duration", []))) := by
  constructor
  · intro h
    rw [h] at hsp
    simp +decide [execute_command, hsp]
  · intro arg more h
    rw [h] at hsp
    constructor
    · intro n hn
      simp +decide [execute_command, hsp, hn]
    · intro hn
      simp +decide [execute_command, hsp, hn]

/-- Witness for C9 (amended) at `sleep 3`. -/
theorem C9_amended_sleep_semantics_witness :
    execute_command env0 (rs "agent_1") (rs "sleep 3") =
      some (rs "Slept for 3 seconds", [.slept 3]) := by
  exact ((C9_amended_sleep_semantics env0 (rs "agent_1") (rs "sleep 3") [rs "3"]
    (by decide)).2 (rs "3") [] rfl).1 3 (by decide)

/-- Lookup after inserting the same key finds the inserted value. -/
theorem alGet_alInsert_self (k : RStr) (v : α) (m : List (RStr × α)) :
    alGet k (alInsert k v m) = some v := by
  simp [alInsert, alGet]

/-- Lookup of a different key is unaffected by an insert. -/
theorem alGet_alInsert_other (k k' : RStr) (v : α) (m : List (RStr × α))
    (h : k ≠ k') : alGet k (alInsert k' v m) = alGet k m := by
  have hne : ¬(k' = k) := fun hc => h hc.symm
  show alGet k ((k', v) :: alErase k' m) = alGet k m
  rw [alGet, if_neg hne]
  exact alGet_alErase_other k k' m h

/-- `completeRunning` updates exactly the first Running position. -/
theorem completeRunning_first (payload : RStr) :
    ∀ (l : List Task) (i : Nat) (t : Task),
      (∀ j u, j < i → l[j]? = some u → ¬u.status = TaskStatus.Running) →
      l[i]? = some t → t.status = TaskStatus.Running →
      completeRunning payload l =
        l.set i { t with status := .Completed, result := some payload } := by
  intro l
  induction l with
  | nil =>
    intro i t _ hget
    simp at hget
  | cons a as ih =>
    intro i t hfirst hget hrun
    cases i with
    | zero =>
      simp only [List.getElem?_cons_zero, Option.some.injEq] at hget
      subst hget
      simp [completeRunning, hrun]
    | succ i =>
      have h0 : ¬a.status = TaskStatus.Running :=
        hfirst 0 a (Nat.succ_pos i) (by simp)
      have hget' : as[i]? = some t := by simpa using hget
      have hfirst' : ∀ j u, j < i → as[j]? = some u → ¬u.status = TaskStatus.Running := by
        intro j u hj hu
        exact hfirst (j + 1) u (Nat.succ_lt_succ hj) (by simpa using hu)
      simp [completeRunning, h0, ih i t hfirst' hget' hrun]

/-- With no Running task, `completeRunning` changes nothing. -/
theorem completeRunning_no_running (payload : RStr) (l : List Task)
    (h : ∀ t ∈ l, ¬t.status = TaskStatus.Running) :
    completeRunning payload l = l := by
  induction l with
  | nil => rfl
  | cons a as ih =>
    have ha := h a (by simp)
    simp [completeRunning, ha]
    exact ih (fun t ht => h t (by simp [ht]))

/-- A one-Running-task state, used by the C10 counterexample and witness. -/
def c10StateRun : Srv :=
  ⟨[], [(rs "a", [{ id := rs "task_1", command := rs "whoami",
                    status := .Running, result := none }])]⟩

/-- A Response payload of 101 UTF-8 bytes whose byte 100 falls inside the
two-byte encoding of U+00E9: 99 ASCII characters followed by one two-byte
character. -/
def c10BadPayload : RStr := List.replicate 99 'a' ++ [Char.ofNat 0xE9]

set_option maxRecDepth 8192 in
/-- Counterexample to C10: a Response envelope carrying `c10BadPayload`
aborts the handler thread — before any task update, the logging slice
`&response.payload[..100]` (main.rs 369) runs because the payload exceeds
100 bytes, and byte offset 100 is not a character boundary, so the handler
panics and the Running task is never marked Completed. The payload's content
therefore does play a role, contradicting the claim as stated. -/
theorem C10_counterexample_response_log_slice_panics :
    byteLen c10BadPayload = 101 ∧
    byteTake 100 c10BadPayload = none ∧
    loopIter aead0 (fun _ => some ⟨.Response, c10BadPayload, 0, rs "a"⟩)
      (List.replicate 32 0) (rs "a") 9 (.bytes (List.replicate 28 0))
      c10StateRun = none := by decide

/-- C10 amended: when the per-connection handler receives a Response
envelope whose payload either is at most 100 bytes long or has a character
boundary at byte offset 100 (in particular every ASCII payload), the loop
iteration's whole store effect is `respStep` applied to the envelope's
payload alone — the Response's timestamp and agent-identifier field (and the
payload's content, for selection) play no role in choosing the task:
`completeRunning` marks Completed exactly the first task whose status is
Running (purely by list position) and stores the payload as its result, and
if no task is Running the task store is observationally unchanged. (Without
the boundary proviso the logging slice at main.rs 369 panics before any task
update, see `C10_counterexample_response_log_slice_panics`.) -/
theorem C10_response_completes_first_running_by_position (aid : RStr) (now : Nat) :
    (∀ (A : AEAD) (parseMsg : Bytes → Option Message) (key b d : Bytes)
        (m : Message) (st : Srv),
      ¬b.length < 12 → Crypto.decrypt A key b = .ok d → parseMsg d = some m →
      m.msg_type = MessageType.Response →
      byteLen m.payload ≤ 100 ∨ (byteTake 100 m.payload).isSome = true →
      loopIter A parseMsg key aid now (.bytes b) st =
        some (respStep aid m.payload (claimStep aid st).2, false)) ∧
    (∀ (payload : RStr) (l : List Task) (i : Nat) (t : Task),
      (∀ j u, j < i → l[j]? = some u → ¬u.status = TaskStatus.Running) →
      l[i]? = some t → t.status = TaskStatus.Running →
      completeRunning payload l =
        l.set i { t with status := .Completed, result := some payload }) ∧
    (∀ (payload : RStr) (l : List Task),
      (∀ t ∈ l, ¬t.status = TaskStatus.Running) →
      completeRunning payload l = l) ∧
    (∀ (payload : RStr) (st : Srv),
      (∀ l, alGet aid st.tasks = some l → ∀ t ∈ l, ¬t.status = TaskStatus.Running) →
      ∀ k, alGet k (respStep aid payload st).tasks = alGet k st.tasks) := by
  refine ⟨?_, completeRunning_first, completeRunning_no_running, ?_⟩
  · intro A parseMsg key b d m st h12 hdec hm hr hrender
    have h0 : ¬b.length = 0 := by omega
    by_cases hb : byteLen m.payload > 100
    · have hs : (byteTake 100 m.payload).isSome = true := by
        rcases hrender with hle | hsome
        · exact absurd hb (by omega)
        · exact hsome
      rcases Option.isSome_iff_exists.mp hs with ⟨v, hv⟩
      simp [loopIter, h0, h12, hdec, hm, hr, hb, hv]
    · simp [loopIter, h0, h12, hdec, hm, hr, hb]
  · intro payload st h k
    rcases hg : alGet aid st.tasks with _ | l
    · simp [respStep, hg]
    · have hnone := completeRunning_no_running payload l (h l hg)
      simp only [respStep, hg, hnone]
      by_cases hk : k = aid
      · subst hk
        rw [alGet_alInsert_self, hg]
      · exact alGet_alInsert_other k aid l st.tasks hk

/-- A no-Running-task state for the C10 witness. -/
def c10StateDone : Srv :=
  ⟨[], [(rs "a", [{ id := rs "task_1", command := rs "whoami",
                    status := .Completed, result := some (rs "x") }])]⟩

/-- Witness for C10 at concrete inputs: a Response envelope carrying an
unrelated agent id and timestamp still drives exactly `respStep` on its
payload; the single Running task at index 0 is the one completed; a list
with no Running task is unchanged, and the store lookup is unaffected. -/
theorem C10_response_completes_first_running_by_position_witness :
    (loopIter aead0 (fun _ => some ⟨.Response, rs "out", 7, rs "zzz"⟩)
        (List.replicate 32 0) (rs "a") 9 (.bytes (List.replicate 28 0))
        c10StateRun =
      some (respStep (rs "a") (rs "out") (claimStep (rs "a") c10StateRun).2, false)) ∧
    (completeRunning (rs "out")
        [{ id := rs "task_1", command := rs "whoami",
           status := .Running, result := none }] =
      [{ id := rs "task_1", command := rs "whoami",
         status := .Running, result := none }].set 0
        { id := rs "task_1", command := rs "whoami",
          status := .Completed, result := some (rs "out") }) ∧
    (completeRunning (rs "out")
        [{ id := rs "task_1", command := rs "whoami",
           status := .Completed, result := some (rs "x") }] =
      [{ id := rs "task_1", command := rs "whoami",
         status := .Completed, result := some (rs "x") }]) ∧
    (alGet (rs "a") (respStep (rs "a") (rs "out") c10StateDone).tasks =
      alGet (rs "a") c10StateDone.tasks) := by
  have h := C10_response_completes_first_running_by_position (rs "a") 9
  refine ⟨?_, ?_, ?_, ?_⟩
  · exact h.1 aead0 (fun _ => some ⟨.Response, rs "out", 7, rs "zzz"⟩)
      (List.replicate 32 0) (List.replicate 28 0) [] ⟨.Response, rs "out", 7, rs "zzz"⟩
      c10StateRun (by decide) rfl rfl rfl (Or.inl (by decide))
  · exact h.2.1 (rs "out")
      [{ id := rs "task_1", command := rs "whoami", status := .Running, result := none }]
      0 { id := rs "task_1", command := rs "whoami", status := .Running, result := none }
      (fun j u hj _ => absurd hj (Nat.not_lt_zero j)) rfl rfl
  · exact h.2.2.1 (rs "out") _ (by decide)
  · refine h.2.2.2 (rs "out") c10StateDone ?_ (rs "a")
    intro l hl
    have hl' : some [({ id := rs "task_1", command := rs "whoami",
                        status := .Completed, result := some (rs "x") } : Task)] =
        some l := hl
    injection hl' with h2
    subst h2
    decide

end C2
